import Mathlib

/-!
Shallow embedding of the task-routing and agent-execution runtime of the
ai-firm repository (src/core/models/{task,agent,project}.py,
src/runtime/queue.py, src/agents/base.py, src/runtime/loop.py).

Modelling conventions:
* Python `datetime` values and UUIDs are modelled as `Nat` (only ordering
  and equality of these values matter to the runtime).
* `asyncio` locks are dropped: every verified operation is modelled as a
  pure state-to-state function executed atomically, which is exactly the
  behaviour the per-queue lock enforces in the source.
* Python's `heapq` module is modelled by its contract: the heap is the list
  of its elements, `heappush` adds an element and `heappop` removes and
  returns a least element with respect to the element order (for
  `PrioritizedTask`, the lexicographic order on `(priority, timestamp)`
  generated by `@dataclass(order=True)` with the task field excluded).
* Python dicts keyed by UUID (`TaskQueue._outbox`) are modelled as
  functions `Nat -> Option Task`; dicts keyed by `AgentRole`
  (`MessageBus._queues`, `Project.agents`) are modelled as association
  lists in insertion order, matching dict iteration order.
* Code that raises (`AgentState.sign_off`, `Project.provide_clarification`,
  attribute access on `None`) is modelled with `Except String`.
-/

namespace AiFirm

/-- The role/profession of an agent (`AgentRole` in agent.py), a `str` enum
with values "pm", "architect", "developer", "tester". -/
inductive AgentRole where
  | pm
  | architect
  | developer
  | tester
deriving DecidableEq, Repr

/-- The underlying string value of an `AgentRole` (it is a `str` enum, so
each member compares equal to its value). -/
def AgentRole.value : AgentRole → String
  | .pm => "pm"
  | .architect => "architect"
  | .developer => "developer"
  | .tester => "tester"

/-- Models the `AgentRole(recipient)` enum constructor call: returns the
member with the given value, or fails (`ValueError` in Python, `none`
here). -/
def AgentRole.ofString (s : String) : Option AgentRole :=
  if s = "pm" then some .pm
  else if s = "architect" then some .architect
  else if s = "developer" then some .developer
  else if s = "tester" then some .tester
  else none

/-- Working status of an agent (`AgentStatus` in agent.py). -/
inductive AgentStatus where
  | working
  | waiting
  | idle
  | paused
deriving DecidableEq, Repr

/-- Task priority (`Priority` in task.py): an `IntEnum`, lower number =
higher priority. -/
inductive Priority where
  | critical
  | high
  | medium
  | low
deriving DecidableEq, Repr

/-- The integer value of a `Priority` member. -/
def Priority.value : Priority → Nat
  | .critical => 0
  | .high => 1
  | .medium => 2
  | .low => 3

/-- Type of task/message (`TaskType` in task.py). -/
inductive TaskType where
  | request
  | response
  | notification
  | feedback
  | review_request
  | review_response
  | question
  | answer
  | clarification_request
  | clarification_response
  | milestone_verification
  | system
deriving DecidableEq, Repr

/-- Status of a task in the queue (`TaskStatus` in task.py). -/
inductive TaskStatus where
  | pending
  | in_progress
  | blocked
  | completed
  | cancelled
deriving DecidableEq, Repr

/-- How an agent can respond to a request (`ResponseType` in task.py). -/
inductive ResponseType where
  | accept
  | counter
  | reject
  | clarify
  | escalate
deriving DecidableEq, Repr

/-- The string value of a `ResponseType` member. -/
def ResponseType.value : ResponseType → String
  | .accept => "accept"
  | .counter => "counter"
  | .reject => "reject"
  | .clarify => "clarify"
  | .escalate => "escalate"

/-- A `sender`/`recipient` field of a task: in the source the static type is
`AgentRole | str` and the code branches on `isinstance`, so the two cases
are kept apart. -/
inductive RoleOrStr where
  | role (r : AgentRole)
  | str (s : String)
deriving DecidableEq, Repr

/-- The string a `RoleOrStr` compares equal to: `AgentRole` is a `str` enum,
so a role member equals its `value` when compared with a plain string. -/
def RoleOrStr.strVal : RoleOrStr → String
  | .role r => r.value
  | .str s => s

/-- A unit of work between agents (`Task` in task.py). `payload` is kept as
a string-to-string association list (only the `response_type` entry is ever
inspected by the verified code); `references` and `deadline` carry no
behaviour and are kept as plain data. -/
structure Task where
  id : Nat
  sender : RoleOrStr
  recipient : RoleOrStr
  task_type : TaskType
  priority : Priority
  subject : String
  content : String
  payload : List (String × String)
  thread_id : Option Nat
  parent_task_id : Option Nat
  references : List Nat
  created_at : Nat
  deadline : Option Nat
  status : TaskStatus
  requires_response : Bool
  response_received : Bool
deriving DecidableEq, Repr

/-- Models `Task.mark_in_progress`. -/
def Task.mark_in_progress (t : Task) : Task :=
  { t with status := .in_progress }

/-- Models `Task.mark_completed`. -/
def Task.mark_completed (t : Task) : Task :=
  { t with status := .completed }

/-- Models `Task.create_response`.  The fresh UUID and `datetime.utcnow()`
of the new task are passed explicitly (`newId`, `now`).  In the source
`response_type.value` is evaluated while building the payload; when the
caller passes `response_type=None` this raises `AttributeError`, modelled
here with `Except`. -/
def Task.create_response (t : Task) (sender : RoleOrStr)
    (response_type : Option ResponseType) (content : String)
    (payload : List (String × String)) (newId now : Nat) :
    Except String Task :=
  match response_type with
  | none => .error "AttributeError: NoneType object has no attribute value"
  | some rt =>
    .ok {
      id := newId
      sender := sender
      recipient := t.sender
      task_type := .response
      priority := t.priority
      subject := "Re: " ++ t.subject
      content := content
      payload := ("response_type", rt.value) :: payload
      thread_id := some (t.thread_id.getD t.id)
      parent_task_id := some t.id
      references := []
      created_at := now
      deadline := none
      status := .pending
      requires_response := true
      response_received := false }

/-- Wrapper for heap ordering (`PrioritizedTask` in queue.py):
`@dataclass(order=True)` with the `task` field excluded from comparison,
so instances compare lexicographically by `(priority, timestamp)`. -/
structure PrioritizedTask where
  priority : Nat
  timestamp : Nat
  task : Task
deriving DecidableEq, Repr

/-- Models `PrioritizedTask.from_task`. -/
def PrioritizedTask.from_task (t : Task) : PrioritizedTask :=
  { priority := t.priority.value, timestamp := t.created_at, task := t }

/-- The comparison `@dataclass(order=True)` generates for `PrioritizedTask`
(the `task` field has `compare=False`): lexicographic less-or-equal on
`(priority, timestamp)`. -/
def PrioritizedTask.le (a b : PrioritizedTask) : Prop :=
  a.priority < b.priority ∨ (a.priority = b.priority ∧ a.timestamp ≤ b.timestamp)

instance (a b : PrioritizedTask) : Decidable (PrioritizedTask.le a b) := by
  unfold PrioritizedTask.le
  infer_instance

/-- Removing a least element from the heap: the functional contract of
`heapq.heappop` (the heap is represented by the list of its elements; pop
returns a least element and the remaining elements). -/
def popMin : List PrioritizedTask → Option (PrioritizedTask × List PrioritizedTask)
  | [] => none
  | x :: xs =>
    match popMin xs with
    | none => some (x, [])
    | some (m, rest) =>
      if PrioritizedTask.le x m then some (x, xs) else some (m, x :: rest)

/-- Pushing onto the heap: the functional contract of `heapq.heappush`
(adds the element to the heap's contents). -/
def heappush (l : List PrioritizedTask) (x : PrioritizedTask) : List PrioritizedTask :=
  l ++ [x]

/-- Strict lexicographic comparison of tasks by the sort key
`(t.priority, t.created_at)` used in `TaskQueue.get_next` (the `Priority`
`IntEnum` compares by its integer value). -/
def taskKeyLt (a b : Task) : Prop :=
  a.priority.value < b.priority.value ∨
    (a.priority.value = b.priority.value ∧ a.created_at < b.created_at)

instance (a b : Task) : Decidable (taskKeyLt a b) := by
  unfold taskKeyLt
  infer_instance

/-- Non-strict lexicographic comparison of tasks by `(priority, created_at)`. -/
def taskKeyLe (a b : Task) : Prop :=
  a.priority.value < b.priority.value ∨
    (a.priority.value = b.priority.value ∧ a.created_at ≤ b.created_at)

instance (a b : Task) : Decidable (taskKeyLe a b) := by
  unfold taskKeyLe
  infer_instance

/-- Stable insertion of a task into an already sorted list: the new task
goes after every existing task whose key is less than or equal to its own. -/
def insertByKey (a : Task) : List Task → List Task
  | [] => [a]
  | b :: bs => if taskKeyLt a b then a :: b :: bs else b :: insertByKey a bs

/-- Models `unblocked.sort(key=lambda t: (t.priority, t.created_at))`:
Python's `list.sort` is a stable sort by the given key, modelled here as a
stable insertion sort. -/
def sortTasks (l : List Task) : List Task :=
  l.foldl (fun acc t => insertByKey t acc) []

/-- Per-agent priority queue (`TaskQueue` in queue.py).  The `_outbox` dict
(UUID -> Task) is modelled as a function `Nat -> Option Task`. -/
structure TaskQueue where
  agent_role : AgentRole
  inbox : List PrioritizedTask
  outbox : Nat → Option Task
  wip : Option Task
  backlog : List Task

/-- Models `TaskQueue.__init__`: all containers start empty. -/
def TaskQueue.init (role : AgentRole) : TaskQueue :=
  { agent_role := role, inbox := [], outbox := fun _ => none,
    wip := none, backlog := [] }

/-- Models `TaskQueue.enqueue`: `heappush` the wrapped task onto the inbox. -/
def TaskQueue.enqueue (q : TaskQueue) (t : Task) : TaskQueue :=
  { q with inbox := heappush q.inbox (PrioritizedTask.from_task t) }

/-- Models `TaskQueue._is_blocked`, including its side effect on the
outbox: if the task is a response to an outstanding outbox entry the entry
is deleted; the function returns `false` on every path. -/
def TaskQueue.is_blocked (q : TaskQueue) (t : Task) : Bool × TaskQueue :=
  match t.parent_task_id with
  | some pid =>
    if (q.outbox pid).isSome then
      (false, { q with outbox := fun k => if k = pid then none else q.outbox k })
    else
      (false, q)
  | none => (false, q)

/-- The code after the `while` loop of `TaskQueue.get_next`: partition the
backlog through `_is_blocked` (threading its outbox side effect), keep the
still-blocked tasks as the new backlog, and return the head of the
unblocked tasks sorted by `(priority, created_at)`.  Returns
`(unblocked, still_blocked, updated queue)`. -/
def TaskQueue.backlogScan (q : TaskQueue) :
    List Task → List Task × List Task × TaskQueue
  | [] => ([], [], q)
  | t :: ts =>
    let res := q.is_blocked t
    let rest := res.2.backlogScan ts
    if res.1 then (rest.1, t :: rest.2.1, rest.2.2)
    else (t :: rest.1, rest.2.1, rest.2.2)

/-- The backlog re-evaluation phase of `TaskQueue.get_next` (lines 68-84 of
queue.py), entered once the inbox is exhausted. -/
def TaskQueue.backlogPhase (q : TaskQueue) : Option Task × TaskQueue :=
  let scanned := q.backlogScan q.backlog
  let q2 := { scanned.2.2 with backlog := scanned.2.1 }
  match sortTasks scanned.1 with
  | [] => (none, q2)
  | t :: _ => (some t, q2)

/-- The `while self._inbox` loop of `TaskQueue.get_next`: pop the least
element; if it is blocked, move it to the backlog and continue; otherwise
return it.  Each iteration removes one inbox element, so the loop runs at
most `inbox.length` times; `fuel` is that bound and the `0` case is the
loop exit into the backlog phase. -/
def TaskQueue.getNextAux : Nat → TaskQueue → Option Task × TaskQueue
  | 0, q => q.backlogPhase
  | fuel + 1, q =>
    match popMin q.inbox with
    | none => q.backlogPhase
    | some (m, rest) =>
      let res := TaskQueue.is_blocked { q with inbox := rest } m.task
      if res.1 then
        TaskQueue.getNextAux fuel { res.2 with backlog := res.2.backlog ++ [m.task] }
      else
        (some m.task, res.2)

/-- Models `TaskQueue.get_next`: returns the highest-priority non-blocked
task together with the updated queue state. -/
def TaskQueue.get_next (q : TaskQueue) : Option Task × TaskQueue :=
  TaskQueue.getNextAux q.inbox.length q

/-- Models `TaskQueue.mark_sent`: record a sent task in the outbox, keyed
by its id, when it requires a response. -/
def TaskQueue.mark_sent (q : TaskQueue) (t : Task) : TaskQueue :=
  if t.requires_response then
    { q with outbox := fun k => if k = t.id then some t else q.outbox k }
  else q

/-- Models `TaskQueue.requeue`: push a task back onto the inbox heap. -/
def TaskQueue.requeue (q : TaskQueue) (t : Task) : TaskQueue :=
  { q with inbox := heappush q.inbox (PrioritizedTask.from_task t) }

/-- Models `TaskQueue.requeue_with_delay`: append a task to the backlog. -/
def TaskQueue.requeue_with_delay (q : TaskQueue) (t : Task) : TaskQueue :=
  { q with backlog := q.backlog ++ [t] }

/-- Models the `inbox_count` property. -/
def TaskQueue.inbox_count (q : TaskQueue) : Nat :=
  q.inbox.length

/-- Models a sequence of `enqueue` calls, in order. -/
def TaskQueue.enqueueAll (q : TaskQueue) (ts : List Task) : TaskQueue :=
  ts.foldl TaskQueue.enqueue q

/-- The list of tasks returned by successive `get_next` calls (with no
interleaved enqueues), stopping once `get_next` returns `none`; `fuel`
bounds the number of calls. -/
def TaskQueue.drain : Nat → TaskQueue → List Task
  | 0, _ => []
  | n + 1, q =>
    match q.get_next with
    | (none, _) => []
    | (some t, q') => t :: TaskQueue.drain n q'

/-- State of an agent (`AgentState` in agent.py).  Fields that carry no
behaviour for the verified operations (`id`, `memory`,
`current_task_summary` content aside) are kept as plain data; `memory` is
omitted because no verified operation reads or writes it. -/
structure AgentState where
  role : AgentRole
  status : AgentStatus
  current_task_id : Option Nat
  current_task_summary : String
  waiting_reason : Option String
  inbox_count : Nat
  outbox_count : Nat
  last_activity : Nat
  tasks_completed : Nat
  signed_off : Bool
  signoff_blockers : List String
deriving DecidableEq, Repr

/-- The dataclass defaults of `AgentState` (fresh agent for a role). -/
def AgentState.init (role : AgentRole) : AgentState :=
  { role := role, status := .idle, current_task_id := none,
    current_task_summary := "", waiting_reason := none, inbox_count := 0,
    outbox_count := 0, last_activity := 0, tasks_completed := 0,
    signed_off := false, signoff_blockers := [] }

/-- Models `AgentState.update_status` (`datetime.utcnow()` is the explicit
`now` argument). -/
def AgentState.update_status (ag : AgentState) (status : AgentStatus)
    (reason : Option String) (now : Nat) : AgentState :=
  { ag with status := status,
            waiting_reason := if status = .waiting then reason else none,
            last_activity := now }

/-- Models `AgentState.start_task`. -/
def AgentState.start_task (ag : AgentState) (task_id : Nat) (summary : String)
    (now : Nat) : AgentState :=
  { ag with current_task_id := some task_id, current_task_summary := summary,
            status := .working, last_activity := now }

/-- Models `AgentState.complete_task`. -/
def AgentState.complete_task (ag : AgentState) (now : Nat) : AgentState :=
  { ag with current_task_id := none, current_task_summary := "",
            tasks_completed := ag.tasks_completed + 1, last_activity := now }

/-- Models `AgentState.sign_off`: raises `ValueError` when the blocker list
is non-empty (Python truthiness of a list), otherwise sets `signed_off`. -/
def AgentState.sign_off (ag : AgentState) : Except String AgentState :=
  if ag.signoff_blockers ≠ [] then
    .error "ValueError: Cannot sign off with blockers"
  else
    .ok { ag with signed_off := true }

/-- Models `AgentState.revoke_signoff`. -/
def AgentState.revoke_signoff (ag : AgentState) (reason : String) : AgentState :=
  { ag with signed_off := false,
            signoff_blockers := ag.signoff_blockers ++ [reason] }

/-- Models `AgentState.clear_blocker` (`list.remove` deletes the first
occurrence; the source guards with a membership test, so a missing blocker
leaves the list unchanged). -/
def AgentState.clear_blocker (ag : AgentState) (blocker : String) : AgentState :=
  if blocker ∈ ag.signoff_blockers then
    { ag with signoff_blockers := ag.signoff_blockers.erase blocker }
  else ag

/-- Central message bus (`MessageBus` in queue.py).  `_queues` is a dict
from role to queue, modelled as an association list in registration order
(dict iteration order in Python is insertion order). -/
structure MessageBus where
  queues : List (AgentRole × TaskQueue)
  broadcast_subscribers : List TaskQueue
  activity_log : List Task

/-- Models `MessageBus.__init__`. -/
def MessageBus.init : MessageBus :=
  { queues := [], broadcast_subscribers := [], activity_log := [] }

/-- Replaces the queue stored under an existing key of the `_queues` dict
(used for `self._queues[role] = queue` on an already-present key). -/
def setQueue (l : List (AgentRole × TaskQueue)) (r : AgentRole)
    (q : TaskQueue) : List (AgentRole × TaskQueue) :=
  l.map fun e => if e.1 = r then (e.1, q) else e

/-- Models `MessageBus.register_agent`: store the queue in the dict and
append it to the broadcast subscriber list. -/
def MessageBus.register_agent (bus : MessageBus) (role : AgentRole)
    (q : TaskQueue) : MessageBus :=
  { bus with
      queues :=
        if (bus.queues.lookup role).isSome then setQueue bus.queues role q
        else bus.queues ++ [(role, q)],
      broadcast_subscribers := bus.broadcast_subscribers ++ [q] }

/-- Enqueues a task into the queue registered under `r`
(`self._queues[recipient].enqueue(task)`). -/
def enqueueIntoRole (l : List (AgentRole × TaskQueue)) (r : AgentRole)
    (t : Task) : List (AgentRole × TaskQueue) :=
  l.map fun e => if e.1 = r then (e.1, e.2.enqueue t) else e

/-- Models `MessageBus.send`: append to the activity log, then route by
recipient — "broadcast" fans out to every registered queue except the
sender's (role-to-sender comparison is by string value, as `AgentRole` is a
`str` enum); "human" is not enqueued anywhere; a known registered role (as
an `AgentRole` or as its string value) receives the task; anything else is
dropped (the `ValueError` of the enum constructor is swallowed by the
source's `except ValueError: pass`). -/
def MessageBus.send (bus : MessageBus) (t : Task) : MessageBus :=
  let bus1 := { bus with activity_log := bus.activity_log ++ [t] }
  if t.recipient.strVal = "broadcast" then
    { bus1 with
        queues := bus1.queues.map fun e =>
          if e.1.value = t.sender.strVal then e else (e.1, e.2.enqueue t) }
  else if t.recipient.strVal = "human" then
    bus1
  else
    match t.recipient with
    | .role r =>
      if (bus1.queues.lookup r).isSome then
        { bus1 with queues := enqueueIntoRole bus1.queues r t }
      else bus1
    | .str s =>
      match AgentRole.ofString s with
      | some r =>
        if (bus1.queues.lookup r).isSome then
          { bus1 with queues := enqueueIntoRole bus1.queues r t }
        else bus1
      | none => bus1

/-- Models `MessageBus.get_recent_activity`: the Python slice
`self._activity_log[-limit:]`, which for `limit = 0` degenerates to the
whole list (`l[-0:] == l[0:] == l`). -/
def MessageBus.get_recent_activity (bus : MessageBus) (limit : Nat) : List Task :=
  if limit = 0 then bus.activity_log
  else bus.activity_log.drop (bus.activity_log.length - limit)

/-- High-level state of the project (`ProjectState` in project.py). -/
inductive ProjectState where
  | created
  | discovery
  | design
  | implementation
  | testing
  | review
  | awaiting_input
  | delivered
  | paused
  | failed
deriving DecidableEq, Repr

/-- The project (`Project` in project.py), restricted to the fields the
verified operations read or write; `agents` is a dict from role to agent
state, modelled as an association list in insertion order. -/
structure Project where
  state : ProjectState
  agents : List (AgentRole × AgentState)
  pending_clarification : Option Task
  completed_at : Option Nat
  updated_at : Nat
deriving DecidableEq, Repr

/-- Models `Project.all_agents_signed_off`:
`all(agent.signed_off for agent in self.agents.values())`. -/
def Project.all_agents_signed_off (p : Project) : Bool :=
  p.agents.all fun e => e.2.signed_off

/-- Models `Project.mark_delivered`. -/
def Project.mark_delivered (p : Project) (now : Nat) : Project :=
  { p with state := .delivered, completed_at := some now, updated_at := now }

/-- Models `Project.request_clarification`. -/
def Project.request_clarification (p : Project) (question_task : Task) : Project :=
  { p with pending_clarification := some question_task,
           state := .awaiting_input }

/-- Models `Project.provide_clarification`: raises when no clarification is
pending; otherwise builds the response via
`create_response(sender="human", response_type=None, ...)` (which
dereferences `None.value` and therefore raises `AttributeError` before any
state is mutated), then would clear the pending request and reset an
awaiting-input project to `DISCOVERY` (the source's comment admits the
previous state is not tracked). -/
def Project.provide_clarification (p : Project) (answer : String)
    (newId now : Nat) : Except String (Project × Task) := do
  match p.pending_clarification with
  | none => .error "ValueError: No pending clarification request"
  | some qt => do
    let r ← qt.create_response (.str "human") none answer [] newId now
    let r := { r with task_type := .clarification_response }
    let p1 := { p with pending_clarification := none }
    let p2 := if p1.state = .awaiting_input then { p1 with state := .discovery }
              else p1
    .ok (p2, r)

/-- One polling step of `AgentRuntime._run_convergence_checker` (loop.py):
when every agent has signed off, mark the project delivered and report
convergence (the shutdown command and persistence snapshot are external
effects and carry no project state beyond `mark_delivered`). -/
def convergenceCheckStep (p : Project) (now : Nat) : Project × Bool :=
  if p.all_agents_signed_off then (p.mark_delivered now, true) else (p, false)

/-- Models `BaseAgent._process_task_wrapper` (base.py).  The abstract
`process_task` call is the `proc` argument: `Except.ok r` is a normal
return with result `r`, `Except.error e` is a raised exception.  The
side effects of `_handle_task_result` on the agent state and queue are the
abstract `handleResult` argument (it touches the message bus, project and
memory, none of which the exception path reads).  Returns the resulting
agent state, queue, and the task object (a mutable Python object in the
source). -/
def process_task_wrapper {ρ : Type} (proc : Except String ρ)
    (handleResult : AgentState → TaskQueue → Task → ρ → AgentState × TaskQueue)
    (ag : AgentState) (q : TaskQueue) (t : Task) (now : Nat) :
    AgentState × TaskQueue × Task :=
  let summary := if t.subject ≠ "" then t.subject else t.content.take 50
  let ag1 := { ag.start_task t.id summary now with inbox_count := q.inbox_count }
  let t1 := t.mark_in_progress
  match proc with
  | .ok r =>
    let hr := handleResult ag1 q t1 r
    (hr.1.complete_task now, hr.2, t1.mark_completed)
  | .error _ =>
    let ag2 := ag1.update_status .idle none now
    let t2 := { t1 with priority := .low }
    (ag2, q.requeue t2, t2)

/-! Helper lemmas about the heap model and `get_next`. -/

theorem PrioritizedTask.le_refl (a : PrioritizedTask) : a.le a := by
  unfold PrioritizedTask.le
  omega

theorem PrioritizedTask.le_trans {a b c : PrioritizedTask}
    (h1 : a.le b) (h2 : b.le c) : a.le c := by
  unfold PrioritizedTask.le at *
  omega

theorem PrioritizedTask.le_total (a b : PrioritizedTask) : a.le b ∨ b.le a := by
  unfold PrioritizedTask.le
  omega

theorem popMin_none (l : List PrioritizedTask) (h : popMin l = none) : l = [] := by
  cases l with
  | nil => rfl
  | cons x xs =>
    exfalso
    unfold popMin at h
    cases hxs : popMin xs with
    | none => simp [hxs] at h
    | some p =>
      obtain ⟨m, rest⟩ := p
      by_cases hle : PrioritizedTask.le x m <;> simp [hxs, hle] at h

theorem popMin_isSome (x : PrioritizedTask) (xs : List PrioritizedTask) :
    (popMin (x :: xs)).isSome := by
  unfold popMin
  cases hxs : popMin xs with
  | none => simp
  | some p =>
    obtain ⟨m, rest⟩ := p
    by_cases hle : PrioritizedTask.le x m <;> simp [hle]

theorem popMin_isSome_of_ne {l : List PrioritizedTask} (h : l ≠ []) :
    (popMin l).isSome := by
  cases l with
  | nil => exact absurd rfl h
  | cons x xs => exact popMin_isSome x xs

theorem popMin_perm {l : List PrioritizedTask} {m : PrioritizedTask}
    {rest : List PrioritizedTask} (h : popMin l = some (m, rest)) :
    l.Perm (m :: rest) := by
  induction l generalizing m rest with
  | nil => simp [popMin] at h
  | cons x xs ih =>
    unfold popMin at h
    cases hxs : popMin xs with
    | none =>
      have hnil := popMin_none xs hxs
      rw [hxs] at h
      have h' := Option.some.inj h
      have h1 : x = m := congrArg Prod.fst h'
      have h2 : ([] : List PrioritizedTask) = rest := congrArg Prod.snd h'
      rw [← h1, ← h2, hnil]
    | some p =>
      obtain ⟨m', rest'⟩ := p
      rw [hxs] at h
      by_cases hle : PrioritizedTask.le x m'
      · have hif : (if PrioritizedTask.le x m' then some (x, xs)
            else some (m', x :: rest')) = some (m, rest) := h
        rw [if_pos hle] at hif
        have h' := Option.some.inj hif
        have h1 : x = m := congrArg Prod.fst h'
        have h2 : xs = rest := congrArg Prod.snd h'
        rw [← h1, ← h2]
      · have hif : (if PrioritizedTask.le x m' then some (x, xs)
            else some (m', x :: rest')) = some (m, rest) := h
        rw [if_neg hle] at hif
        have h' := Option.some.inj hif
        have h1 : m' = m := congrArg Prod.fst h'
        have h2 : x :: rest' = rest := congrArg Prod.snd h'
        rw [← h1, ← h2]
        exact (List.Perm.cons x (ih hxs)).trans (List.Perm.swap m' x rest')

theorem popMin_mem {l : List PrioritizedTask} {m : PrioritizedTask}
    {rest : List PrioritizedTask} (h : popMin l = some (m, rest)) : m ∈ l :=
  (popMin_perm h).mem_iff.mpr (List.mem_cons_self m rest)

theorem popMin_min {l : List PrioritizedTask} {m : PrioritizedTask}
    {rest : List PrioritizedTask} (h : popMin l = some (m, rest)) :
    ∀ x ∈ rest, m.le x := by
  induction l generalizing m rest with
  | nil => simp [popMin] at h
  | cons x xs ih =>
    unfold popMin at h
    cases hxs : popMin xs with
    | none =>
      rw [hxs] at h
      have h2 : ([] : List PrioritizedTask) = rest :=
        congrArg Prod.snd (Option.some.inj h)
      intro y hy
      rw [← h2] at hy
      simp at hy
    | some p =>
      obtain ⟨m', rest'⟩ := p
      rw [hxs] at h
      by_cases hle : PrioritizedTask.le x m'
      · have hif : (if PrioritizedTask.le x m' then some (x, xs)
            else some (m', x :: rest')) = some (m, rest) := h
        rw [if_pos hle] at hif
        have h' := Option.some.inj hif
        have h1 : x = m := congrArg Prod.fst h'
        have h2 : xs = rest := congrArg Prod.snd h'
        intro y hy
        rw [← h1]
        rw [← h2] at hy
        have hy' := (popMin_perm hxs).mem_iff.mp hy
        rcases List.mem_cons.mp hy' with h3 | h3
        · rw [h3]; exact hle
        · exact PrioritizedTask.le_trans hle (ih hxs y h3)
      · have hif : (if PrioritizedTask.le x m' then some (x, xs)
            else some (m', x :: rest')) = some (m, rest) := h
        rw [if_neg hle] at hif
        have h' := Option.some.inj hif
        have h1 : m' = m := congrArg Prod.fst h'
        have h2 : x :: rest' = rest := congrArg Prod.snd h'
        intro y hy
        rw [← h1]
        rw [← h2] at hy
        rcases List.mem_cons.mp hy with h3 | h3
        · rw [h3]
          rcases PrioritizedTask.le_total x m' with h4 | h4
          · exact absurd h4 hle
          · exact h4
        · exact ih hxs y h3

theorem is_blocked_fst (q : TaskQueue) (t : Task) : (q.is_blocked t).1 = false := by
  unfold TaskQueue.is_blocked
  cases t.parent_task_id with
  | none => rfl
  | some pid => by_cases h : (q.outbox pid).isSome <;> simp [h]

theorem is_blocked_inbox (q : TaskQueue) (t : Task) :
    (q.is_blocked t).2.inbox = q.inbox := by
  unfold TaskQueue.is_blocked
  cases t.parent_task_id with
  | none => rfl
  | some pid => by_cases h : (q.outbox pid).isSome <;> simp [h]

theorem is_blocked_backlog (q : TaskQueue) (t : Task) :
    (q.is_blocked t).2.backlog = q.backlog := by
  unfold TaskQueue.is_blocked
  cases t.parent_task_id with
  | none => rfl
  | some pid => by_cases h : (q.outbox pid).isSome <;> simp [h]

theorem get_next_popMin_some {q : TaskQueue} {m : PrioritizedTask}
    {rest : List PrioritizedTask} (h : popMin q.inbox = some (m, rest)) :
    q.get_next = (some m.task, (TaskQueue.is_blocked { q with inbox := rest } m.task).2) := by
  cases hq : q.inbox with
  | nil => rw [hq] at h; simp [popMin] at h
  | cons x xs =>
    rw [hq] at h
    unfold TaskQueue.get_next
    rw [hq]
    show TaskQueue.getNextAux (xs.length + 1) q = _
    unfold TaskQueue.getNextAux
    rw [hq, h]
    simp [is_blocked_fst]

theorem get_next_fst_empty {q : TaskQueue} (h1 : q.inbox = [])
    (h2 : q.backlog = []) : q.get_next = (none, q) := by
  unfold TaskQueue.get_next
  rw [h1]
  show TaskQueue.getNextAux 0 q = _
  unfold TaskQueue.getNextAux TaskQueue.backlogPhase
  rw [h2]
  simp only [TaskQueue.backlogScan, sortTasks, List.foldl_nil]
  rw [← h2]

theorem insertByKey_length (a : Task) (l : List Task) :
    (insertByKey a l).length = l.length + 1 := by
  induction l with
  | nil => rfl
  | cons b bs ih =>
    unfold insertByKey
    by_cases h : taskKeyLt a b <;> simp [h, ih]

theorem sortTasks_length (l : List Task) : (sortTasks l).length = l.length := by
  have key : ∀ (acc : List Task),
      (l.foldl (fun acc t => insertByKey t acc) acc).length = acc.length + l.length := by
    induction l with
    | nil => intro acc; simp
    | cons t ts ih =>
      intro acc
      simp only [List.foldl_cons]
      rw [ih, insertByKey_length]
      simp only [List.length_cons]
      omega
  simpa [sortTasks] using key []

theorem backlogScan_unblocked (ts : List Task) : ∀ q : TaskQueue,
    (q.backlogScan ts).1 = ts ∧ (q.backlogScan ts).2.1 = [] := by
  induction ts with
  | nil => intro q; exact ⟨rfl, rfl⟩
  | cons t ts ih =>
    intro q
    simp only [TaskQueue.backlogScan, is_blocked_fst, Bool.false_eq_true, if_false]
    exact ⟨by rw [(ih _).1], (ih _).2⟩

/-- Well-formedness of the inbox: every heap entry was built by
`PrioritizedTask.from_task`, so its comparison key mirrors its task. -/
def InboxWF (l : List PrioritizedTask) : Prop :=
  ∀ p ∈ l, p.priority = p.task.priority.value ∧ p.timestamp = p.task.created_at

theorem drain_mem (n : Nat) : ∀ q : TaskQueue, q.backlog = [] →
    ∀ u ∈ TaskQueue.drain n q, ∃ p ∈ q.inbox, u = p.task := by
  induction n with
  | zero => intro q _ u hu; simp [TaskQueue.drain] at hu
  | succ n ih =>
    intro q hb u hu
    by_cases hq : q.inbox = []
    case pos =>
      rw [TaskQueue.drain, get_next_fst_empty hq hb] at hu
      simp at hu
    case neg =>
      obtain ⟨⟨m, rest⟩, hpop⟩ := Option.isSome_iff_exists.mp (popMin_isSome_of_ne hq)
      rw [TaskQueue.drain, get_next_popMin_some hpop] at hu
      rcases List.mem_cons.mp hu with h1 | h1
      · exact ⟨m, popMin_mem hpop, h1⟩
      · have hb' : (TaskQueue.is_blocked { q with inbox := rest } m.task).2.backlog = [] := by
          rw [is_blocked_backlog]; exact hb
        obtain ⟨p, hp, hup⟩ := ih _ hb' u h1
        rw [is_blocked_inbox] at hp
        exact ⟨p, (popMin_perm hpop).mem_iff.mpr (List.mem_cons_of_mem m hp), hup⟩

theorem drain_sorted (n : Nat) : ∀ q : TaskQueue, q.backlog = [] →
    InboxWF q.inbox → List.Pairwise taskKeyLe (TaskQueue.drain n q) := by
  induction n with
  | zero => intro q _ _; exact List.Pairwise.nil
  | succ n ih =>
    intro q hb hwf
    by_cases hq : q.inbox = []
    case pos =>
      rw [TaskQueue.drain, get_next_fst_empty hq hb]
      exact List.Pairwise.nil
    case neg =>
      obtain ⟨⟨m, rest⟩, hpop⟩ := Option.isSome_iff_exists.mp (popMin_isSome_of_ne hq)
      rw [TaskQueue.drain, get_next_popMin_some hpop]
      have hb' : (TaskQueue.is_blocked { q with inbox := rest } m.task).2.backlog = [] := by
        rw [is_blocked_backlog]; exact hb
      have hrest_sub : ∀ p ∈ rest, p ∈ q.inbox := fun p hp =>
        (popMin_perm hpop).mem_iff.mpr (List.mem_cons_of_mem m hp)
      have hwf' : InboxWF (TaskQueue.is_blocked { q with inbox := rest } m.task).2.inbox := by
        rw [is_blocked_inbox]
        exact fun p hp => hwf p (hrest_sub p hp)
      refine List.Pairwise.cons ?_ (ih _ hb' hwf')
      intro u hu
      obtain ⟨p, hp, hup⟩ := drain_mem n _ hb' u hu
      rw [is_blocked_inbox] at hp
      have hle := popMin_min hpop p hp
      have hm := hwf m (popMin_mem hpop)
      have hp' := hwf p (hrest_sub p hp)
      rw [hup]
      unfold PrioritizedTask.le at hle
      unfold taskKeyLe
      omega

theorem drain_subperm (n : Nat) : ∀ q : TaskQueue, q.backlog = [] →
    (TaskQueue.drain n q).Subperm (q.inbox.map PrioritizedTask.task) := by
  induction n with
  | zero => intro q _; exact List.nil_subperm
  | succ n ih =>
    intro q hb
    by_cases hq : q.inbox = []
    case pos =>
      rw [TaskQueue.drain, get_next_fst_empty hq hb]
      exact List.nil_subperm
    case neg =>
      obtain ⟨⟨m, rest⟩, hpop⟩ := Option.isSome_iff_exists.mp (popMin_isSome_of_ne hq)
      rw [TaskQueue.drain, get_next_popMin_some hpop]
      have hb' : (TaskQueue.is_blocked { q with inbox := rest } m.task).2.backlog = [] := by
        rw [is_blocked_backlog]; exact hb
      have hrec := ih _ hb'
      rw [is_blocked_inbox] at hrec
      have hcons : (m.task :: TaskQueue.drain n
          (TaskQueue.is_blocked { q with inbox := rest } m.task).2).Subperm
          (m.task :: rest.map PrioritizedTask.task) :=
        (List.subperm_cons m.task).mpr hrec
      refine hcons.trans (List.Perm.subperm ?_)
      have hp := ((popMin_perm hpop).map PrioritizedTask.task).symm
      simpa using hp

theorem enqueueAll_inbox (ts : List Task) : ∀ q : TaskQueue,
    (q.enqueueAll ts).inbox = q.inbox ++ ts.map PrioritizedTask.from_task := by
  induction ts with
  | nil => intro q; simp [TaskQueue.enqueueAll]
  | cons t ts ih =>
    intro q
    show ((q.enqueue t).enqueueAll ts).inbox = _
    rw [ih]
    simp [TaskQueue.enqueue, heappush]

theorem enqueueAll_backlog (ts : List Task) : ∀ q : TaskQueue,
    (q.enqueueAll ts).backlog = q.backlog := by
  induction ts with
  | nil => intro q; rfl
  | cons t ts ih =>
    intro q
    show ((q.enqueue t).enqueueAll ts).backlog = _
    rw [ih]
    rfl

/-- Claim C1: for any sequence of enqueue calls on a `TaskQueue` with tasks
of priorities P1..Pn (pairwise-distinct creation times), the sequence of
tasks returned by successive `get_next` calls with no interleaved enqueues
is in non-decreasing priority order (lower numeric `Priority` value first),
and among tasks of equal priority, in increasing `created_at` order (FIFO
within a priority tier). -/
theorem c1_dequeue_priority_fifo_order (role : AgentRole) (ts : List Task)
    (hd : ts.Pairwise fun a b => a.created_at ≠ b.created_at) (fuel : Nat) :
    List.Pairwise taskKeyLt
      (TaskQueue.drain fuel ((TaskQueue.init role).enqueueAll ts)) := by
  set q := (TaskQueue.init role).enqueueAll ts with hqdef
  have hb : q.backlog = [] := by rw [hqdef, enqueueAll_backlog]; rfl
  have hinbox : q.inbox = ts.map PrioritizedTask.from_task := by
    rw [hqdef, enqueueAll_inbox]; rfl
  have hwf : InboxWF q.inbox := by
    rw [hinbox]
    intro p hp
    obtain ⟨t, _, ht⟩ := List.mem_map.mp hp
    rw [← ht]
    exact ⟨rfl, rfl⟩
  have hle := drain_sorted fuel q hb hwf
  have hsub := drain_subperm fuel q hb
  rw [hinbox, List.map_map] at hsub
  have hmapid : ts.map (PrioritizedTask.task ∘ PrioritizedTask.from_task) = ts := by
    have : (PrioritizedTask.task ∘ PrioritizedTask.from_task) = id := by
      funext t; rfl
    rw [this, List.map_id]
  rw [hmapid] at hsub
  have hne : (TaskQueue.drain fuel q).Pairwise fun a b => a.created_at ≠ b.created_at := by
    obtain ⟨l', hperm, hsubl⟩ := hsub
    have h1 : l'.Pairwise fun a b => a.created_at ≠ b.created_at :=
      List.Pairwise.sublist hsubl hd
    exact (List.Perm.pairwise_iff (fun hxy => hxy.symm) hperm).mp h1
  refine (hle.and hne).imp ?_
  intro a b hab
  obtain ⟨h1, h2⟩ := hab
  unfold taskKeyLe at h1
  unfold taskKeyLt
  omega

/-- A concrete task for examples: a plain pending request with the given
id, endpoints, priority and creation time. -/
def mkTask (id : Nat) (sender recipient : RoleOrStr) (prio : Priority)
    (created : Nat) : Task :=
  { id := id, sender := sender, recipient := recipient, task_type := .request,
    priority := prio, subject := "", content := "", payload := [],
    thread_id := none, parent_task_id := none, references := [],
    created_at := created, deadline := none, status := .pending,
    requires_response := true, response_received := false }

/-- Low-priority example task (the spec's enqueue LOW, HIGH, MEDIUM example). -/
def tLow : Task := mkTask 1 (.role .pm) (.role .architect) .low 1

/-- High-priority example task. -/
def tHigh : Task := mkTask 2 (.role .pm) (.role .architect) .high 2

/-- Medium-priority example task. -/
def tMedium : Task := mkTask 3 (.role .pm) (.role .architect) .medium 3

/-- Witness for C1 at the spec's own example (enqueue LOW, HIGH, MEDIUM):
the hypotheses hold and the drained sequence is sorted. -/
theorem c1_dequeue_priority_fifo_order_witness :
    ([tLow, tHigh, tMedium].Pairwise fun a b => a.created_at ≠ b.created_at) ∧
    List.Pairwise taskKeyLt
      (TaskQueue.drain 3 ((TaskQueue.init .pm).enqueueAll [tLow, tHigh, tMedium])) :=
  ⟨by decide, c1_dequeue_priority_fifo_order .pm [tLow, tHigh, tMedium] (by decide) 3⟩

/-- First deferred example task (medium priority, created at 10). -/
def tDeferredA : Task := mkTask 4 (.role .architect) (.role .pm) .medium 10

/-- Second deferred example task (medium priority, created at 11). -/
def tDeferredB : Task := mkTask 5 (.role .architect) (.role .pm) .medium 11

/-- The reachable queue state with an empty inbox and the two deferred
tasks in the backlog (placed there by `requeue_with_delay`). -/
def qBacklogTwo : TaskQueue :=
  ((TaskQueue.init .pm).requeue_with_delay tDeferredA).requeue_with_delay tDeferredB

/-- Claim C3 (code bug): on `qBacklogTwo` (empty inbox, two unblocked tasks
in the backlog), `get_next` returns one task but removes BOTH from the
queue state: the non-returned backlog task `tDeferredB` is in neither the
inbox nor the backlog afterwards, i.e. it is silently discarded,
contradicting the claim that only the returned task is removed. -/
theorem c3_get_next_discards_backlog :
    qBacklogTwo.inbox = [] ∧
    qBacklogTwo.backlog = [tDeferredA, tDeferredB] ∧
    qBacklogTwo.get_next.1 = some tDeferredA ∧
    qBacklogTwo.get_next.2.inbox = [] ∧
    qBacklogTwo.get_next.2.backlog = [] := by
  decide

/-- Example sent task that requires a response (for C2). -/
def taskSent : Task := mkTask 21 (.role .pm) (.role .architect) .medium 30

/-- Example response task to `taskSent` (its `parent_task_id` is
`taskSent.id`). -/
def taskResp : Task :=
  { mkTask 22 (.role .architect) (.role .pm) .medium 40 with
      task_type := .response, parent_task_id := some 21 }

/-- Counterexample to claim C2 as stated: after `mark_sent taskSent`,
enqueuing the response task `taskResp` (whose `parent_task_id` is
`taskSent.id`) does NOT clear the sender's outbox entry — `enqueue` only
pushes onto the inbox heap, and the outbox still maps `taskSent.id` to
`taskSent` after the enqueue. -/
theorem c2_enqueue_does_not_clear_outbox :
    taskResp.parent_task_id = some taskSent.id ∧
    taskSent.requires_response = true ∧
    (((TaskQueue.init .pm).mark_sent taskSent).outbox taskSent.id = some taskSent) ∧
    ((((TaskQueue.init .pm).mark_sent taskSent).enqueue taskResp).outbox taskSent.id
      = some taskSent) := by
  decide

/-- Claim C2 as amended: `mark_sent` records a response-requiring task in
the outbox keyed by its id; `enqueue` never touches the outbox; the outbox
entry is cleared by the `get_next` call that pops the response task whose
`parent_task_id` names it; and (since `_is_blocked` never reports a task as
blocked) every backlog item is already eligible: a `get_next` call on an
empty inbox and non-empty backlog returns a task. -/
theorem c2_outbox_cleared_on_get_next (q : TaskQueue) (A t : Task) (pid : Nat) :
    (A.requires_response = true → (q.mark_sent A).outbox A.id = some A) ∧
    ((q.enqueue t).outbox = q.outbox) ∧
    (∀ m rest, popMin q.inbox = some (m, rest) → m.task.parent_task_id = some pid →
      q.get_next.1 = some m.task ∧
      ∀ k, q.get_next.2.outbox k = if k = pid then none else q.outbox k) ∧
    (q.inbox = [] → q.backlog ≠ [] → q.get_next.1.isSome = true) := by
  refine ⟨?_, rfl, ?_, ?_⟩
  · intro hreq
    simp [TaskQueue.mark_sent, hreq]
  · intro m rest hpop hpar
    rw [get_next_popMin_some hpop]
    refine ⟨rfl, ?_⟩
    intro k
    unfold TaskQueue.is_blocked
    rw [hpar]
    by_cases hout : (q.outbox pid).isSome
    · simp only [hout, if_true]
    · simp only [hout, Bool.false_eq_true, if_false]
      by_cases hk : k = pid
      · subst hk
        simp [Option.not_isSome_iff_eq_none.mp hout]
      · simp [hk]
  · intro hin hbl
    unfold TaskQueue.get_next
    rw [hin]
    show (TaskQueue.getNextAux 0 q).1.isSome = true
    unfold TaskQueue.getNextAux TaskQueue.backlogPhase
    have hscan := backlogScan_unblocked q.backlog q
    cases hsort : sortTasks (q.backlogScan q.backlog).1 with
    | nil =>
      exfalso
      have : (sortTasks (q.backlogScan q.backlog).1).length = 0 := by rw [hsort]; rfl
      rw [sortTasks_length, hscan.1] at this
      exact hbl (List.length_eq_zero.mp this)
    | cons t' ts' => simp [hsort]

/-- Witness for C2's amended theorem: on the concrete queue holding the
outbox entry for `taskSent` and the response `taskResp` in the inbox, the
next `get_next` returns the response and the outbox entry is gone. -/
theorem c2_outbox_cleared_on_get_next_witness :
    (let qW := ((TaskQueue.init .pm).mark_sent taskSent).enqueue taskResp
    qW.get_next.1 = some taskResp ∧ qW.get_next.2.outbox taskSent.id = none) := by
  have h := (c2_outbox_cleared_on_get_next
    (((TaskQueue.init .pm).mark_sent taskSent).enqueue taskResp)
    taskSent taskResp taskSent.id).2.2.1
    (PrioritizedTask.from_task taskResp) [] (by decide) (by decide)
  refine ⟨h.1, ?_⟩
  have h2 := h.2 taskSent.id
  simpa using h2

/-- Claim C4: when processing a task raises an exception
(`proc = .error e`), the executor wrapper returns normally (the loop
continues), the agent's status is reset to idle, and the same task (same
id) is re-queued — not dropped — into the inbox with its priority
downgraded to LOW, which is the lowest tier (largest numeric value). -/
theorem c4_exception_requeues_low {ρ : Type}
    (handleResult : AgentState → TaskQueue → Task → ρ → AgentState × TaskQueue)
    (ag : AgentState) (q : TaskQueue) (t : Task) (e : String) (now : Nat) :
    (process_task_wrapper (ρ := ρ) (.error e) handleResult ag q t now).1.status
        = .idle ∧
    (process_task_wrapper (ρ := ρ) (.error e) handleResult ag q t now).2.2.id
        = t.id ∧
    (process_task_wrapper (ρ := ρ) (.error e) handleResult ag q t now).2.2.priority
        = .low ∧
    (∀ p : Priority, p.value ≤ Priority.low.value) ∧
    (process_task_wrapper (ρ := ρ) (.error e) handleResult ag q t now).2.1.inbox
        = heappush q.inbox (PrioritizedTask.from_task
            (process_task_wrapper (ρ := ρ) (.error e) handleResult ag q t now).2.2) ∧
    (process_task_wrapper (ρ := ρ) (.error e) handleResult ag q t now).2.1.backlog
        = q.backlog ∧
    (process_task_wrapper (ρ := ρ) (.error e) handleResult ag q t now).2.1.outbox
        = q.outbox := by
  refine ⟨rfl, rfl, rfl, ?_, rfl, rfl, rfl⟩
  intro p
  cases p <;> simp [Priority.value]

/-- Invariant of claim C5: an agent is signed off only with an empty
blocker list. -/
def SignoffInv (ag : AgentState) : Prop :=
  ag.signed_off = true → ag.signoff_blockers = []

/-- Claim C5: `sign_off` with a non-empty blocker list raises and produces
no new state (so `signed_off` stays false); with no blockers it succeeds
and sets `signed_off`; `revoke_signoff` always appends a blocker and clears
`signed_off`; and the invariant "`signed_off` implies no blockers" is
preserved by every operation on `AgentState`. -/
theorem c5_signoff_invariant (ag : AgentState) :
    (ag.signoff_blockers ≠ [] →
      ag.sign_off = .error "ValueError: Cannot sign off with blockers" ∧
      ∀ ag', ag.sign_off ≠ .ok ag') ∧
    (ag.signoff_blockers = [] →
      ag.sign_off = .ok { ag with signed_off := true }) ∧
    (∀ r, (ag.revoke_signoff r).signed_off = false ∧
      (ag.revoke_signoff r).signoff_blockers = ag.signoff_blockers ++ [r]) ∧
    (SignoffInv ag →
      (∀ ag', ag.sign_off = .ok ag' → SignoffInv ag') ∧
      (∀ r, SignoffInv (ag.revoke_signoff r)) ∧
      (∀ b, SignoffInv (ag.clear_blocker b)) ∧
      (∀ st rsn now, SignoffInv (ag.update_status st rsn now)) ∧
      (∀ tid s now, SignoffInv (ag.start_task tid s now)) ∧
      (∀ now, SignoffInv (ag.complete_task now))) := by
  refine ⟨?_, ?_, ?_, ?_⟩
  · intro hne
    constructor
    · simp [AgentState.sign_off, hne]
    · intro ag'
      simp [AgentState.sign_off, hne]
  · intro hnil
    simp [AgentState.sign_off, hnil]
  · intro r
    exact ⟨rfl, rfl⟩
  · intro hinv
    refine ⟨?_, ?_, ?_, ?_, ?_, ?_⟩
    · intro ag' hok
      unfold AgentState.sign_off at hok
      by_cases hne : ag.signoff_blockers ≠ []
      · simp [hne] at hok
      · push_neg at hne
        rw [if_neg (by simp [hne])] at hok
        have := Except.ok.inj hok
        intro _
        rw [← this]
        exact hne
    · intro r _
      simp [AgentState.revoke_signoff] at *
    · intro b
      unfold AgentState.clear_blocker
      by_cases hmem : b ∈ ag.signoff_blockers
      · rw [if_pos hmem]
        intro hso
        have hnil := hinv hso
        rw [hnil] at hmem
        simp at hmem
      · rw [if_neg hmem]
        exact hinv
    · intro st rsn now hso
      exact hinv hso
    · intro tid s now hso
      exact hinv hso
    · intro now hso
      exact hinv hso

/-- Witness for C5 at concrete states: signing off with a blocker fails;
after clearing it, signing off succeeds; revoking appends. -/
theorem c5_signoff_invariant_witness :
    (((AgentState.init .pm).revoke_signoff "tests failing").sign_off
      = .error "ValueError: Cannot sign off with blockers") ∧
    ((AgentState.init .pm).sign_off
      = .ok { AgentState.init .pm with signed_off := true }) ∧
    ((((AgentState.init .pm).revoke_signoff "tests failing").clear_blocker
        "tests failing").sign_off
      = .ok { ((AgentState.init .pm).revoke_signoff "tests failing").clear_blocker
          "tests failing" with signed_off := true }) := by
  refine ⟨?_, ?_, ?_⟩
  · exact ((c5_signoff_invariant _).1 (by decide)).1
  · exact (c5_signoff_invariant _).2.1 (by decide)
  · exact (c5_signoff_invariant _).2.1 (by decide)

theorem AgentRole.value_inj (a b : AgentRole) : a.value = b.value ↔ a = b := by
  cases a <;> cases b <;> decide

/-- Claim C6: a task with recipient "broadcast" sent by a registered sender
role R is enqueued exactly once into the mailbox of every registered role
other than R, and zero times into R's own mailbox; the activity log gains
the task.  The per-entry statement: each registered `(role, queue)` pair
keeps its role, and the count of the task's heap entry in that queue's
inbox grows by one except for the sender's queue, which is unchanged. -/
theorem c6_broadcast_delivery (bus : MessageBus) (t : Task) (R : AgentRole)
    (hrec : t.recipient.strVal = "broadcast")
    (hsend : t.sender.strVal = R.value) :
    ((bus.send t).activity_log = bus.activity_log ++ [t]) ∧
    ((bus.send t).queues.length = bus.queues.length) ∧
    (∀ i (hi : i < bus.queues.length) (hi' : i < (bus.send t).queues.length),
      ((bus.send t).queues.get ⟨i, hi'⟩).1 = (bus.queues.get ⟨i, hi⟩).1 ∧
      ((bus.send t).queues.get ⟨i, hi'⟩).2.inbox.count
          (PrioritizedTask.from_task t) =
        (bus.queues.get ⟨i, hi⟩).2.inbox.count (PrioritizedTask.from_task t) +
          (if (bus.queues.get ⟨i, hi⟩).1 = R then 0 else 1)) := by
  have hsend' : ∀ r : AgentRole, (r.value = t.sender.strVal) = (r = R) := by
    intro r
    rw [hsend]
    exact propext (AgentRole.value_inj r R)
  unfold MessageBus.send
  rw [if_pos hrec]
  refine ⟨rfl, by simp, ?_⟩
  intro i hi hi'
  have hget : ∀ (l : List (AgentRole × TaskQueue)) (j : Nat)
      (hj : j < l.length) (hj' : j < (l.map fun e =>
        if e.1.value = t.sender.strVal then e else (e.1, e.2.enqueue t)).length),
      ((l.map fun e => if e.1.value = t.sender.strVal then e
        else (e.1, e.2.enqueue t)).get ⟨j, hj'⟩) =
      (if (l.get ⟨j, hj⟩).1.value = t.sender.strVal then l.get ⟨j, hj⟩
        else ((l.get ⟨j, hj⟩).1, (l.get ⟨j, hj⟩).2.enqueue t)) := by
    intro l j hj hj'
    rw [List.get_map]
  rw [hget bus.queues i hi hi']
  set e := bus.queues.get ⟨i, hi⟩ with hedef
  have hcond : (e.1.value = t.sender.strVal) ↔ (e.1 = R) := by
    rw [hsend]
    exact AgentRole.value_inj e.1 R
  by_cases hR : e.1 = R
  · rw [if_pos (hcond.mpr hR), if_pos hR]
    exact ⟨rfl, rfl⟩
  · rw [if_neg (fun hc => hR (hcond.mp hc)), if_neg hR]
    refine ⟨rfl, ?_⟩
    simp [TaskQueue.enqueue, heappush, List.count_append]

/-- Example bus with all four roles registered (for witnesses). -/
def busFour : MessageBus :=
  ((((MessageBus.init).register_agent .pm (TaskQueue.init .pm)).register_agent
    .architect (TaskQueue.init .architect)).register_agent
    .developer (TaskQueue.init .developer)).register_agent
    .tester (TaskQueue.init .tester)

/-- Example broadcast task sent by the PM. -/
def tBroadcast : Task :=
  { mkTask 31 (.role .pm) (.str "broadcast") .medium 50 with
      task_type := .notification }

/-- Witness for C6: broadcasting from the PM over the four-role bus —
entry 0 (the PM itself) is unchanged, entry 1 (the architect) gains exactly
one copy. -/
theorem c6_broadcast_delivery_witness :
    ((busFour.send tBroadcast).activity_log = busFour.activity_log ++ [tBroadcast]) ∧
    ((busFour.send tBroadcast).queues.length = busFour.queues.length) ∧
    (((busFour.send tBroadcast).queues.get ⟨0, by decide⟩).2.inbox.count
        (PrioritizedTask.from_task tBroadcast) =
      (busFour.queues.get ⟨0, by decide⟩).2.inbox.count
        (PrioritizedTask.from_task tBroadcast) +
        (if (busFour.queues.get ⟨0, by decide⟩).1 = AgentRole.pm then 0 else 1)) ∧
    (((busFour.send tBroadcast).queues.get ⟨1, by decide⟩).2.inbox.count
        (PrioritizedTask.from_task tBroadcast) =
      (busFour.queues.get ⟨1, by decide⟩).2.inbox.count
        (PrioritizedTask.from_task tBroadcast) +
        (if (busFour.queues.get ⟨1, by decide⟩).1 = AgentRole.pm then 0 else 1)) := by
  have h := c6_broadcast_delivery busFour tBroadcast .pm (by decide) (by decide)
  refine ⟨h.1, h.2.1, ?_, ?_⟩
  · exact (h.2.2 0 (by decide) (by decide)).2
  · exact (h.2.2 1 (by decide) (by decide)).2

/-- Flipping one registered agent's `signed_off` back to false (the re-check
scenario of claim C7). -/
def setSignedOffFalse (p : Project) (r : AgentRole) : Project :=
  { p with agents := p.agents.map fun e =>
      if e.1 = r then (e.1, { e.2 with signed_off := false }) else e }

/-- Claim C7: with every role registered, `all_agents_signed_off` (and the
convergence checker built on it) reports convergence exactly when all
registered agent states have `signed_off = true`; the checker then marks
the project delivered; and flipping any one agent's `signed_off` back to
false makes a re-check report non-convergence. -/
theorem c7_convergence_iff_all_signed_off (p : Project) (now : Nat)
    (hall : ∀ r : AgentRole, r ∈ p.agents.map Prod.fst) :
    (p.all_agents_signed_off = true ↔ ∀ e ∈ p.agents, e.2.signed_off = true) ∧
    ((convergenceCheckStep p now).2 = true ↔ p.all_agents_signed_off = true) ∧
    ((convergenceCheckStep p now).2 = true →
      (convergenceCheckStep p now).1.state = .delivered) ∧
    (∀ r : AgentRole, (setSignedOffFalse p r).all_agents_signed_off = false) := by
  refine ⟨List.all_eq_true, ?_, ?_, ?_⟩
  · unfold convergenceCheckStep
    by_cases hc : p.all_agents_signed_off <;> simp [hc]
  · unfold convergenceCheckStep
    by_cases hc : p.all_agents_signed_off <;>
      simp [hc, Project.mark_delivered]
  · intro r
    obtain ⟨e, he, her⟩ := List.mem_map.mp (hall r)
    have h0 := List.mem_map_of_mem (fun e' : AgentRole × AgentState =>
      if e'.1 = r then (e'.1, { e'.2 with signed_off := false }) else e') he
    simp only [her, eq_self_iff_true, if_true] at h0
    rw [Bool.eq_false_iff]
    intro hall'
    have hx := List.all_eq_true.mp hall' _ h0
    simp at hx

/-- Example project in the design phase with all four agents registered and
signed off. -/
def projAllSigned : Project :=
  { state := .design,
    agents := [(.pm, { AgentState.init .pm with signed_off := true }),
               (.architect, { AgentState.init .architect with signed_off := true }),
               (.developer, { AgentState.init .developer with signed_off := true }),
               (.tester, { AgentState.init .tester with signed_off := true })],
    pending_clarification := none, completed_at := none, updated_at := 0 }

/-- Witness for C7 on the concrete four-agent project: convergence is
reported and the project is marked delivered; flipping the tester back
clears it. -/
theorem c7_convergence_iff_all_signed_off_witness :
    (projAllSigned.all_agents_signed_off = true) ∧
    ((convergenceCheckStep projAllSigned 9).2 = true) ∧
    ((convergenceCheckStep projAllSigned 9).1.state = .delivered) ∧
    ((setSignedOffFalse projAllSigned .tester).all_agents_signed_off = false) := by
  have h := c7_convergence_iff_all_signed_off projAllSigned 9
    (by intro r; cases r <;> decide)
  refine ⟨?_, ?_, ?_, h.2.2.2 .tester⟩
  · exact h.1.mpr (by decide)
  · exact h.2.1.mpr (h.1.mpr (by decide))
  · exact h.2.2.1 (h.2.1.mpr (h.1.mpr (by decide)))

/-- Example clarification-request task from the PM to the human. -/
def tClarify : Task :=
  { mkTask 41 (.role .pm) (.str "human") .high 60 with
      task_type := .clarification_request }

/-- Example project in the design phase (all agents fresh). -/
def projDesign : Project :=
  { state := .design,
    agents := [(.pm, AgentState.init .pm),
               (.architect, AgentState.init .architect),
               (.developer, AgentState.init .developer),
               (.tester, AgentState.init .tester)],
    pending_clarification := none, completed_at := none, updated_at := 0 }

/-- Claim C8 (code bug): raising a clarification from the DESIGN state does
NOT round-trip back to DESIGN when the answer is provided.
`request_clarification` moves the project to awaiting-input, but
`provide_clarification` calls `create_response(response_type=None)`, which
raises `AttributeError` (`None.value`), so the call fails before any state
is reset — and even its reset branch hardcodes `DISCOVERY`, never the
previous state. -/
theorem c8_clarification_does_not_roundtrip :
    (projDesign.request_clarification tClarify).state = .awaiting_input ∧
    projDesign.state = .design ∧
    ((projDesign.request_clarification tClarify).provide_clarification
        "use sqlite" 42 61
      = .error "AttributeError: NoneType object has no attribute value") :=
  ⟨rfl, rfl, rfl⟩

/-- The role a recipient resolves to, if any: a direct `AgentRole` value,
or a string accepted by the `AgentRole` constructor. -/
def recipientRole : RoleOrStr → Option AgentRole
  | .role r => some r
  | .str s => AgentRole.ofString s

/-- Claim C9: a task whose recipient is neither "broadcast" nor "human" nor
a registered role is appended to the activity log and then dropped —
`send` returns normally and every registered mailbox is unchanged. -/
theorem c9_unknown_recipient_dropped (bus : MessageBus) (t : Task)
    (h1 : t.recipient.strVal ≠ "broadcast")
    (h2 : t.recipient.strVal ≠ "human")
    (h3 : ∀ r, recipientRole t.recipient = some r → bus.queues.lookup r = none) :
    bus.send t = { bus with activity_log := bus.activity_log ++ [t] } := by
  unfold MessageBus.send
  rw [if_neg h1, if_neg h2]
  cases hrec : t.recipient with
  | role r =>
    have hr := h3 r (by rw [hrec]; rfl)
    simp [hr]
  | str s =>
    cases hs : AgentRole.ofString s with
    | none => simp [hs]
    | some r =>
      have hr := h3 r (by rw [hrec]; simpa [recipientRole] using hs)
      simp [hs, hr]

/-- Example task addressed to an unknown recipient "ceo". -/
def tUnknown : Task := mkTask 51 (.role .pm) (.str "ceo") .medium 70

/-- Witness for C9: sending the "ceo"-addressed task over the four-role bus
only appends to the activity log. -/
theorem c9_unknown_recipient_dropped_witness :
    busFour.send tUnknown =
      { busFour with activity_log := busFour.activity_log ++ [tUnknown] } := by
  refine c9_unknown_recipient_dropped busFour tUnknown (by decide) (by decide) ?_
  intro r h
  simp [recipientRole, tUnknown, mkTask, RoleOrStr.strVal, AgentRole.ofString] at h

/-- Example bus whose activity log already holds two sent tasks. -/
def busLogTwo : MessageBus :=
  (busFour.send tLow).send tHigh

/-- Counterexample to claim C10 as stated: with a log of two sent tasks and
limit `N = 0`, `get_recent_activity` returns the whole log (Python's
`l[-0:]` is `l`), not the last `min(0, 2) = 0` tasks. -/
theorem c10_limit_zero_returns_all :
    busLogTwo.activity_log.length = 2 ∧
    (busLogTwo.get_recent_activity 0).length = 2 ∧
    ¬ ((busLogTwo.get_recent_activity 0).length
        = min 0 busLogTwo.activity_log.length) := by
  decide

/-- Claim C10 as amended: `get_recent_activity` never mutates the log and
returns a suffix of it (so the tasks come in send order); for every limit
`N >= 1` that suffix is exactly the last `min(N, length)` sent tasks, while
for `N = 0` it is the entire log. -/
theorem c10_recent_activity (bus : MessageBus) (N : Nat) :
    (bus.get_recent_activity N).IsSuffix bus.activity_log ∧
    (1 ≤ N → (bus.get_recent_activity N).length
      = min N bus.activity_log.length) ∧
    (N = 0 → bus.get_recent_activity N = bus.activity_log) := by
  refine ⟨?_, ?_, ?_⟩
  · unfold MessageBus.get_recent_activity
    by_cases h0 : N = 0
    · rw [if_pos h0]
    · rw [if_neg h0]
      exact List.drop_suffix _ _
  · intro h1
    unfold MessageBus.get_recent_activity
    rw [if_neg (by omega)]
    rw [List.length_drop]
    omega
  · intro h0
    unfold MessageBus.get_recent_activity
    rw [if_pos h0]

/-- Witness for C10's amended theorem on the two-task log with limit 1. -/
theorem c10_recent_activity_witness :
    (busLogTwo.get_recent_activity 1).IsSuffix busLogTwo.activity_log ∧
    (busLogTwo.get_recent_activity 1).length
      = min 1 busLogTwo.activity_log.length ∧
    busLogTwo.get_recent_activity 0 = busLogTwo.activity_log := by
  have h1 := c10_recent_activity busLogTwo 1
  have h0 := c10_recent_activity busLogTwo 0
  exact ⟨h1.1, h1.2.1 (by decide), h0.2.2 rfl⟩

end AiFirm
